import Mathlib

/-!
SNTP server: request validation and response construction (`sntp/server.go`)
and the receive-serve-send loop (`main.go`).

A shallow embedding of the Go package `sntp` and of the loop of `main`.

* A byte is a natural number; every byte the code stores is reduced `% 256`.
* A Go slice is modelled with its capacity: the elements below `len` and the
  elements of the backing array between `len` and `cap`.
* A run-time panic (index or slice bounds out of range) is `Except.error`
  with the kind of the panic; a normal return is `Except.ok`.
* `time.Now()` is a parameter: the pair of values `now.Unix()` and
  `now.Nanosecond()` that the code reads from it.
* A Go `error` is `Option String`: `none` is `nil`, `some msg` is
  `errors.New(msg)`.
* The loop of `main` is a function of what each iteration receives from the
  outside (the result of the read, the clock reading, the result of the write)
  to the calls it makes (`WriteTo`, `Println`), in order.
-/

namespace Sntp

/-! ## Go values -/

/-- A Go `[]byte`: `elems` are the `len` addressable bytes, `spare` the bytes of
the backing array between `len` and `cap` (reachable by re-slicing only). -/
structure Slice where
  elems : List Nat
  spare : List Nat
deriving DecidableEq, Repr

/-- A Go function that returns normally (`Except.ok`) or panics at run time
(`Except.error`, with the kind of the panic). -/
abbrev Run (α : Type) : Type := Except String α

/-- Go `len(s)`. -/
def Slice.len (s : Slice) : Nat := s.elems.length

/-- Go `cap(s)`. -/
def Slice.cap (s : Slice) : Nat := s.elems.length + s.spare.length

/-- Go `s[i]`: panics when `i` is not below `len(s)`. -/
def Slice.index (s : Slice) (i : Nat) : Run Nat :=
  match s.elems[i]? with
  | some b => .ok b
  | none => .error "index out of range"

/-- Go `s[lo:hi]` as a source of `copy`: its `hi - lo` bytes. The bounds are
checked against the capacity, not the length; out of range panics. -/
def Slice.slice (s : Slice) (lo hi : Nat) : Run (List Nat) :=
  if lo ≤ hi ∧ hi ≤ s.cap then .ok (((s.elems ++ s.spare).drop lo).take (hi - lo))
  else .error "slice bounds out of range"

/-- Go `copy(dst[lo:hi], src)` on a local buffer `dst` whose capacity is its
length: copies `min (hi - lo) (len src)` bytes to position `lo`; panics when
the bounds of `dst[lo:hi]` are out of range. -/
def copyAt (dst : List Nat) (lo hi : Nat) (src : List Nat) : Run (List Nat) :=
  if lo ≤ hi ∧ hi ≤ dst.length then
    .ok (dst.take lo ++ src.take (hi - lo) ++ dst.drop (lo + min (hi - lo) src.length))
  else .error "slice bounds out of range"

/-- Go `src[lo:hi]` on a local buffer `src` whose capacity is its length: the
`hi - lo` bytes from `lo`; panics when the bounds are out of range. -/
def subSlice (src : List Nat) (lo hi : Nat) : Run (List Nat) :=
  if lo ≤ hi ∧ hi ≤ src.length then .ok ((src.drop lo).take (hi - lo))
  else .error "slice bounds out of range"

/-- Go `dst[i] = v` on a local buffer: panics when `i` is not below `len(dst)`. -/
def setAt (dst : List Nat) (i v : Nat) : Run (List Nat) :=
  if i < dst.length then .ok (dst.set i v) else .error "index out of range"

/-- Go conversion `[]byte(s)`: the UTF-8 encoding of the string. -/
def bytesOfString (s : String) : List Nat :=
  (s.data.flatMap String.utf8EncodeChar).map UInt8.toNat

/-- The reading of the clock taken by `time.Now()`: what `now.Unix()` (an
`int64`) and `now.Nanosecond()` (an `int`, in `[0, 999999999]`) return. -/
structure Time where
  unix : Int
  nanosecond : Int
deriving DecidableEq, Repr

/-- Two's-complement wrap of an integer result to `int64`. -/
def wrapInt64 (x : Int) : Int := (x + 2 ^ 63) % 2 ^ 64 - 2 ^ 63

/-- Go conversion `uint32(x)` of an `int64`: the low 32 bits. -/
def uint32 (x : Int) : Nat := (x % 2 ^ 32).toNat

/-- Go conversion `byte(x)` of a signed integer: the low 8 bits. -/
def byteOfInt (x : Int) : Nat := (x % 256).toNat

/-- The bytes written by `binary.BigEndian.PutUint32(b, v)` into a 4-byte `b`. -/
def putUint32 (v : Nat) : List Nat :=
  [(v >>> 24) % 256, (v >>> 16) % 256, (v >>> 8) % 256, v % 256]

/-- Value of one digit character in `strconv.ParseUint`, `none` for a
character that is no digit. -/
def digitVal (c : Char) : Option Nat :=
  if '0' ≤ c ∧ c ≤ '9' then some (c.toNat - '0'.toNat)
  else if 'a' ≤ c ∧ c ≤ 'z' then some (c.toNat - 'a'.toNat + 10)
  else if 'A' ≤ c ∧ c ≤ 'Z' then some (c.toNat - 'A'.toNat + 10)
  else none

/-- The digit loop of `strconv.ParseUint`: value and whether an error occurred.
A syntax error yields `0`, a range error the maximal value of the bit size. -/
def parseDigits (base maxVal : Nat) : List Char → Nat → Nat × Bool
  | [], n => (n, false)
  | c :: cs, n =>
    match digitVal c with
    | none => (0, true)
    | some d =>
      if d ≥ base then (0, true)
      else if n * base + d > maxVal then (maxVal, true)
      else parseDigits base maxVal cs (n * base + d)

/-- Go `strconv.ParseUint(s, base, bitSize)` for an explicit base in `2..36`
and a bit size in `0..64`, where 0 stands for 64: the value and whether the
error is non-nil. -/
def ParseUint (s : String) (base bitSize : Nat) : Nat × Bool :=
  if s.data = [] then (0, true)
  else parseDigits base (2 ^ (if bitSize = 0 then 64 else bitSize) - 1) s.data 0

/-! ## `server.go` -/

def LiNoWarning : Nat := 0
def LiAlarmCondition : Nat := 3
def VnFirst : Nat := 1
def VnLast : Nat := 4
def ModeClient : Nat := 3

/-- The value `init` stores in `bitMask2`: `byte` of `ParseUint("11", 2, 8)`,
the error dropped. -/
def bitMask2 : Nat := (ParseUint "11" 2 8).1 % 256

/-- The value `init` stores in `bitMask3`: `byte` of `ParseUint("111", 2, 8)`,
the error dropped. -/
def bitMask3 : Nat := (ParseUint "111" 2 8).1 % 256

/-- Go `checkClientRequest`: each read of `req[0]` panics on an empty slice. -/
def checkClientRequest (req : Slice) : Run Bool := do
  let leapIndicator := ((← req.index 0) >>> 6) &&& bitMask2
  let versionNumber := ((← req.index 0) >>> 3) &&& bitMask3
  let mode := (← req.index 0) &&& bitMask3
  if leapIndicator ≠ LiNoWarning ∧ leapIndicator ≠ LiAlarmCondition then
    return false
  if versionNumber < VnFirst ∨ versionNumber > VnLast then
    return false
  if mode ≠ ModeClient then
    return false
  return true

def SecondsFrom1900To1970 : Int := 2208988800

/-- Go `generate`, with the clock reading of `time.Now()` as a parameter. The
result is the 48-byte slice `res` (capacity 48). -/
def generate (req : Slice) (now : Time) : Run Slice := do
  let res := List.replicate 48 0
  let second := wrapInt64 (now.unix + SecondsFrom1900To1970)
  let fraction := Int.tdiv (wrapInt64 (wrapInt64 now.nanosecond * 2 ^ 32)) 1000000000
  let secondBytes := putUint32 (uint32 second)
  let fractionBytes := putUint32 (uint32 fraction)
  let leapIndicator := LiNoWarning
  let versionNumber := ((← req.index 0) >>> 3) &&& bitMask3
  let mode := 4
  let res ← setAt res 0 (((leapIndicator <<< 6 % 256 + versionNumber <<< 3 % 256) % 256 + mode) % 256)
  let stratum := 1
  let res ← setAt res 1 stratum
  let pollInterval := 4
  let res ← setAt res 2 pollInterval
  let precision : Int := -127
  let res ← setAt res 3 (byteOfInt precision)
  let res ← copyAt res 4 8 [0, 0, 0, 0]
  let res ← copyAt res 8 12 [0, 0, 0, 0]
  let res ← copyAt res 12 16 (bytesOfString "LOCL")
  let res ← copyAt res 16 20 secondBytes
  let res ← copyAt res 20 24 fractionBytes
  let res ← copyAt res 24 32 (← req.slice 40 48)
  let res ← copyAt res 32 36 secondBytes
  let res ← copyAt res 36 40 fractionBytes
  let res ← copyAt res 40 48 (← subSlice res 32 40)
  return ⟨res, []⟩

/-- Go `Serve`: the pair of results `([]byte, error)`. -/
def Serve (req : Slice) (now : Time) : Run (Slice × Option String) := do
  if (← checkClientRequest req) then
    return (← generate req now, none)
  return (⟨[], []⟩, some "invalid format")

/-! ## `main.go` -/

/-- What one call of `c.ReadFromUDP(data[0:])` delivers: the bytes of the
datagram, the address of its sender and whether the error is non-nil. -/
structure Received where
  payload : List Nat
  remoteAddr : Nat
  err : Bool
deriving DecidableEq, Repr

/-- The environment of one iteration of the loop of `main`: the datagram
received, the clock reading `generate` takes, and the error `c.WriteTo` would
return. -/
structure Tick where
  recv : Received
  now : Time
  writeErr : Option String
deriving DecidableEq, Repr

/-- The calls an iteration makes to the outside: `c.WriteTo(bytes, addr)` and
`fmt.Println(msg)`. -/
inductive Effect where
  | writeTo (bytes : List Nat) (addr : Nat)
  | println (msg : String)
deriving DecidableEq, Repr

/-- The number of bytes `ReadFromUDP` stores in the 512-byte buffer. -/
def readLength (payload : List Nat) : Nat := min payload.length 512

/-- Go `data[0:readLength]` after the read, `data` being a fresh
`make([]byte, 512)`: the stored bytes, and zeros up to the capacity 512. -/
def dataBuffer (payload : List Nat) : Slice :=
  ⟨payload.take 512, List.replicate (512 - readLength payload) 0⟩

/-- One iteration of the `for` loop of `main`: the calls it makes, in order. A
panic of `Serve` ends the program. -/
def iteration (t : Tick) : Run (List Effect) := do
  if t.recv.err then
    return []
  if readLength t.recv.payload > 0 then
    let (res, err) ← Serve (dataBuffer t.recv.payload) t.now
    match err with
    | some e => return [Effect.println ("serve err: " ++ e)]
    | none =>
      match t.writeErr with
      | some er => return [Effect.writeTo res.elems t.recv.remoteAddr, Effect.println er]
      | none => return [Effect.writeTo res.elems t.recv.remoteAddr]
  return []

/-- The loop of `main` over the iterations of a run, in order. -/
def mainLoop : List Tick → Run (List Effect)
  | [] => .ok []
  | t :: ts => do
    let e ← iteration t
    let es ← mainLoop ts
    return e ++ es

/-- Go `main`: the two setup steps, each ending the program on an error, then
the loop. -/
def main (resolveErr listenErr : Bool) (ticks : List Tick) : Run (List Effect) :=
  if resolveErr then .ok [Effect.println "resolve addr err"]
  else if listenErr then .ok [Effect.println "listen err"]
  else mainLoop ticks

/-- The calls of `c.WriteTo` among the calls made: bytes and address. -/
def sendsOf : List Effect → List (List Nat × Nat)
  | [] => []
  | Effect.writeTo bytes addr :: es => (bytes, addr) :: sendsOf es
  | Effect.println _ :: es => sendsOf es

/-! ## Definitions used in the statements and proofs -/

/-- The answer the specification gives to one received datagram: the bytes
`Serve` returns, addressed to the sender, when the read succeeded, the datagram
is not empty and `Serve` returns a nil error; no answer in every other case. -/
def answerOf (t : Tick) : Option (List Nat × Nat) :=
  if t.recv.err then none
  else if t.recv.payload = [] then none
  else
    match Serve (dataBuffer t.recv.payload) t.now with
    | .ok (res, none) => some (res.elems, t.recv.remoteAddr)
    | _ => none

/-- The value of a byte sequence read as a big-endian unsigned integer. -/
def beValue (bs : List Nat) : Nat := bs.foldl (fun acc b => acc * 256 + b) 0

/-- The 48 bytes of a response, by field: first byte `r0`, the timestamp of the
clock reading as seconds `s` and fraction `f`, and the echoed bytes `orig`. -/
def layout (r0 s f : Nat) (orig : List Nat) : List Nat :=
  r0 :: 1 :: 4 :: 129 :: 0 :: 0 :: 0 :: 0 :: 0 :: 0 :: 0 :: 0 :: 0x4C :: 0x4F :: 0x43 :: 0x4C ::
    (putUint32 s ++ putUint32 f ++ orig ++ putUint32 s ++ putUint32 f ++ putUint32 s ++ putUint32 f)

/-- The first byte `generate` computes from the first byte `b0` of the request. -/
def firstByte (b0 : Nat) : Nat :=
  ((0 <<< 6 % 256 + ((b0 >>> 3) &&& 7) <<< 3 % 256) % 256 + 4) % 256

/-- The seconds field `generate` computes from the clock reading. -/
def secondsOf (now : Time) : Nat := uint32 (wrapInt64 (now.unix + SecondsFrom1900To1970))

/-- The fraction field `generate` computes from the clock reading. -/
def fractionOf (now : Time) : Nat :=
  uint32 (Int.tdiv (wrapInt64 (wrapInt64 now.nanosecond * 2 ^ 32)) 1000000000)

/-- The header rules of `checkClientRequest` on the first byte. -/
abbrev headerOk (b0 : Nat) : Prop :=
  ((b0 >>> 6) &&& 3 = 0 ∨ (b0 >>> 6) &&& 3 = 3) ∧
    1 ≤ (b0 >>> 3) &&& 7 ∧ (b0 >>> 3) &&& 7 ≤ 4 ∧ b0 &&& 7 = 3

/-- A clock reading: 2023-11-14 22:13:20.5 UTC. -/
def exampleNow : Time := ⟨1700000000, 500000000⟩

/-- A 48-byte request with first byte `0x1B` (LI 0, VN 3, Mode 3) and transmit
timestamp bytes `1..8`. -/
def exampleRequest : Slice := ⟨0x1B :: List.replicate 39 0 ++ [1, 2, 3, 4, 5, 6, 7, 8], []⟩

/-- A 52-byte request with first byte `0xDB` (LI 3, VN 3, Mode 3), in a buffer
of capacity 56. -/
def exampleLongRequest : Slice :=
  ⟨0xDB :: List.replicate 39 0 ++ [1, 2, 3, 4, 5, 6, 7, 8, 9, 9, 9, 9], [0, 0, 0, 0]⟩

/-- The response to `exampleRequest` and to `exampleLongRequest` at `exampleNow`. -/
def exampleResponse : Slice :=
  ⟨[0x1C, 1, 4, 0x81, 0, 0, 0, 0, 0, 0, 0, 0, 0x4C, 0x4F, 0x43, 0x4C,
    0xE8, 0xFE, 0x6F, 0x80, 0x80, 0, 0, 0, 1, 2, 3, 4, 5, 6, 7, 8,
    0xE8, 0xFE, 0x6F, 0x80, 0x80, 0, 0, 0, 0xE8, 0xFE, 0x6F, 0x80, 0x80, 0, 0, 0], []⟩

/-- The clock reading half a second after `exampleNow`. -/
def nextNow : Time := ⟨1700000001, 0⟩

/-- The response to `exampleRequest` at `nextNow`. -/
def nextResponse : Slice :=
  ⟨[0x1C, 1, 4, 0x81, 0, 0, 0, 0, 0, 0, 0, 0, 0x4C, 0x4F, 0x43, 0x4C,
    0xE8, 0xFE, 0x6F, 0x81, 0, 0, 0, 0, 1, 2, 3, 4, 5, 6, 7, 8,
    0xE8, 0xFE, 0x6F, 0x81, 0, 0, 0, 0, 0xE8, 0xFE, 0x6F, 0x81, 0, 0, 0, 0], []⟩

/-- A clock reading in the year 2096, after the NTP seconds count has passed
`2^32`: the count is 6208988800. -/
def lateNow : Time := ⟨4000000000, 0⟩

/-- The response to `exampleRequest` at `lateNow`. -/
def lateResponse : Slice :=
  ⟨[0x1C, 1, 4, 0x81, 0, 0, 0, 0, 0, 0, 0, 0, 0x4C, 0x4F, 0x43, 0x4C,
    0x72, 0x15, 0xA6, 0x80, 0, 0, 0, 0, 1, 2, 3, 4, 5, 6, 7, 8,
    0x72, 0x15, 0xA6, 0x80, 0, 0, 0, 0, 0x72, 0x15, 0xA6, 0x80, 0, 0, 0, 0], []⟩

/-- The one-byte datagram `0x1B` as `main` passes it to `Serve`: `data[0:1]` of a
fresh 512-byte buffer. -/
def oneByteRequest : Slice := ⟨[0x1B], List.replicate 511 0⟩

/-- The one-byte request `0x1B` in a 512-byte buffer whose other bytes are 9:
the same request bytes as `oneByteRequest`, in another buffer. -/
def ninesRequest : Slice := ⟨[0x1B], List.replicate 511 9⟩

/-- The 48-byte request with first byte `b0` and zeros elsewhere. -/
def requestWith (b0 : Nat) : Slice := ⟨b0 :: List.replicate 47 0, []⟩

/-- The all-zero 48-byte request. -/
def zeroRequest : Slice := ⟨List.replicate 48 0, []⟩

/-- A run of four iterations: a valid request from address 7, the all-zero
request, an empty datagram and a failed read. -/
def exampleTicks : List Tick :=
  [⟨⟨exampleRequest.elems, 7, false⟩, exampleNow, none⟩,
   ⟨⟨zeroRequest.elems, 8, false⟩, exampleNow, none⟩,
   ⟨⟨[], 9, false⟩, exampleNow, none⟩,
   ⟨⟨exampleRequest.elems, 10, true⟩, exampleNow, none⟩]

/-! ## Auxiliary facts -/

theorem bitMask2_eq : bitMask2 = 3 := by decide

theorem bitMask3_eq : bitMask3 = 7 := by decide

theorem bytesOfString_LOCL : bytesOfString "LOCL" = [0x4C, 0x4F, 0x43, 0x4C] := by decide

theorem list_eq_of_length_eight (l : List Nat) (h : l.length = 8) :
    ∃ a0 a1 a2 a3 a4 a5 a6 a7, l = [a0, a1, a2, a3, a4, a5, a6, a7] := by
  rcases l with _ | ⟨a0, _ | ⟨a1, _ | ⟨a2, _ | ⟨a3, _ | ⟨a4, _ | ⟨a5, _ | ⟨a6, _ | ⟨a7, _ | ⟨a8, l⟩⟩⟩⟩⟩⟩⟩⟩⟩ <;>
    simp at h
  exact ⟨a0, a1, a2, a3, a4, a5, a6, a7, rfl⟩

theorem index_zero (req : Slice) (b0 : Nat) (h0 : req.elems[0]? = some b0) :
    req.index 0 = .ok b0 := by
  simp only [Slice.index, h0]

/-- The header test of `checkClientRequest` on a non-empty request. -/
theorem checkClientRequest_eq (req : Slice) (b0 : Nat) (h0 : req.elems[0]? = some b0) :
    checkClientRequest req = .ok (decide (headerOk b0)) := by
  simp only [headerOk, checkClientRequest, index_zero req b0 h0, bitMask2_eq, bitMask3_eq, LiNoWarning,
    LiAlarmCondition, VnFirst, VnLast, ModeClient, bind, Except.bind, pure, Except.pure]
  generalize (b0 >>> 6) &&& 3 = li
  generalize (b0 >>> 3) &&& 7 = vn
  generalize b0 &&& 7 = md
  split_ifs with h1 h2 h3 <;> simp <;> omega

/-- Bytes `40..47` of the backing array exist as soon as the capacity is 48. -/
theorem slice_40_48 (req : Slice) (hc : 48 ≤ req.cap) :
    ∃ a0 a1 a2 a3 a4 a5 a6 a7, req.slice 40 48 = .ok [a0, a1, a2, a3, a4, a5, a6, a7] ∧
      ((req.elems ++ req.spare).drop 40).take 8 = [a0, a1, a2, a3, a4, a5, a6, a7] := by
  have hl : (((req.elems ++ req.spare).drop 40).take 8).length = 8 := by
    simp only [Slice.cap] at hc
    simp only [List.length_take, List.length_drop, List.length_append]
    omega
  obtain ⟨a0, a1, a2, a3, a4, a5, a6, a7, h⟩ := list_eq_of_length_eight _ hl
  refine ⟨a0, a1, a2, a3, a4, a5, a6, a7, ?_, h⟩
  simp only [Slice.slice]
  rw [if_pos ⟨by omega, hc⟩]
  exact congrArg Except.ok h

theorem slice_40_48_short (req : Slice) (hc : req.cap < 48) :
    req.slice 40 48 = .error "slice bounds out of range" := by
  simp only [Slice.slice]
  rw [if_neg (fun h => by omega)]

/-- Closed form of the response built by `generate`. -/
theorem generate_eq (req : Slice) (now : Time) (b0 a0 a1 a2 a3 a4 a5 a6 a7 : Nat)
    (h0 : req.elems[0]? = some b0)
    (hs : req.slice 40 48 = .ok [a0, a1, a2, a3, a4, a5, a6, a7]) :
    generate req now = .ok ⟨layout (firstByte b0) (secondsOf now) (fractionOf now)
      [a0, a1, a2, a3, a4, a5, a6, a7], []⟩ := by
  simp only [generate, index_zero req b0 h0, hs, bitMask3_eq, bytesOfString_LOCL, LiNoWarning,
    bind, Except.bind, pure, Except.pure, layout, firstByte, secondsOf, fractionOf]
  generalize uint32 (wrapInt64 (now.unix + SecondsFrom1900To1970)) = s
  generalize uint32 (Int.tdiv (wrapInt64 (wrapInt64 now.nanosecond * 2 ^ 32)) 1000000000) = f
  generalize ((0 <<< 6 % 256 + ((b0 >>> 3) &&& 7) <<< 3 % 256) % 256 + 4) % 256 = r0
  have hb : byteOfInt (-127) = 129 := by decide
  simp only [hb, putUint32]
  simp [setAt, copyAt, subSlice, List.replicate]

/-- With a capacity below 48 the slice expression `req[40:48]` makes `generate` panic. -/
theorem generate_short (req : Slice) (now : Time) (b0 : Nat)
    (h0 : req.elems[0]? = some b0) (hc : req.cap < 48) :
    generate req now = .error "slice bounds out of range" := by
  simp only [generate, index_zero req b0 h0, slice_40_48_short req hc, bitMask3_eq,
    bytesOfString_LOCL, LiNoWarning, bind, Except.bind, pure, Except.pure]
  generalize uint32 (wrapInt64 (now.unix + SecondsFrom1900To1970)) = s
  generalize uint32 (Int.tdiv (wrapInt64 (wrapInt64 now.nanosecond * 2 ^ 32)) 1000000000) = f
  generalize ((0 <<< 6 % 256 + ((b0 >>> 3) &&& 7) <<< 3 % 256) % 256 + 4) % 256 = r0
  have hb : byteOfInt (-127) = 129 := by decide
  simp only [hb, putUint32]
  simp [setAt, copyAt, subSlice, List.replicate]

theorem Serve_empty (spare : List Nat) (now : Time) :
    Serve ⟨[], spare⟩ now = .error "index out of range" := rfl

/-- A request whose first byte breaks a header rule gets the error and no bytes. -/
theorem Serve_reject (req : Slice) (now : Time) (b0 : Nat)
    (h0 : req.elems[0]? = some b0) (hbad : ¬ headerOk b0) :
    Serve req now = .ok (⟨[], []⟩, some "invalid format") := by
  simp [Serve, checkClientRequest_eq req b0 h0, hbad, bind, Except.bind, pure, Except.pure]

/-- A request whose first byte passes the header rules is answered by `generate`. -/
theorem Serve_accept (req : Slice) (now : Time) (b0 : Nat)
    (h0 : req.elems[0]? = some b0) (hok : headerOk b0) :
    Serve req now = (generate req now).map (fun res => (res, none)) := by
  have hd : decide (headerOk b0) = true := decide_eq_true hok
  simp only [Serve, checkClientRequest_eq req b0 h0, bind, Except.bind, pure, Except.pure]
  rw [if_pos hd]
  cases generate req now <;> rfl

/-- What a normal return of `Serve` tells about the request and the results:
either the error is nil and the response is the 48-byte layout, or the error is
"invalid format" and the byte sequence is empty. -/
theorem Serve_ok_cases (req : Slice) (now : Time) (res : Slice) (err : Option String)
    (h : Serve req now = .ok (res, err)) :
    (err = none ∧ ∃ b0 a0 a1 a2 a3 a4 a5 a6 a7, req.elems[0]? = some b0 ∧ headerOk b0 ∧
      48 ≤ req.cap ∧
      ((req.elems ++ req.spare).drop 40).take 8 = [a0, a1, a2, a3, a4, a5, a6, a7] ∧
      res = ⟨layout (firstByte b0) (secondsOf now) (fractionOf now)
        [a0, a1, a2, a3, a4, a5, a6, a7], []⟩) ∨
    (err = some "invalid format" ∧ res = ⟨[], []⟩) := by
  cases h0 : req.elems[0]? with
  | none =>
    have he : req.elems = [] := by
      cases hl : req.elems with
      | nil => rfl
      | cons a l => rw [hl] at h0; simp at h0
    obtain ⟨elems, spare⟩ := req
    simp only at he
    subst he
    rw [Serve_empty] at h
    cases h
  | some b0 =>
    by_cases hok : headerOk b0
    · by_cases hc : 48 ≤ req.cap
      · obtain ⟨a0, a1, a2, a3, a4, a5, a6, a7, hs, hw⟩ := slice_40_48 req hc
        rw [Serve_accept req now b0 h0 hok, generate_eq req now b0 _ _ _ _ _ _ _ _ h0 hs] at h
        simp only [Except.map, Except.ok.injEq, Prod.mk.injEq] at h
        exact Or.inl ⟨h.2.symm, b0, a0, a1, a2, a3, a4, a5, a6, a7, rfl, hok, hc, hw, h.1.symm⟩
      · rw [Serve_accept req now b0 h0 hok, generate_short req now b0 h0 (by omega)] at h
        cases h
    · rw [Serve_reject req now b0 h0 hok] at h
      simp only [Except.ok.injEq, Prod.mk.injEq] at h
      exact Or.inr ⟨h.2.symm, h.1.symm⟩

/-- What a successful call of `Serve` tells about the request and the response. -/
theorem Serve_ok_inv (req : Slice) (now : Time) (res : Slice)
    (h : Serve req now = .ok (res, none)) :
    ∃ b0 a0 a1 a2 a3 a4 a5 a6 a7, req.elems[0]? = some b0 ∧ headerOk b0 ∧ 48 ≤ req.cap ∧
      ((req.elems ++ req.spare).drop 40).take 8 = [a0, a1, a2, a3, a4, a5, a6, a7] ∧
      res = ⟨layout (firstByte b0) (secondsOf now) (fractionOf now)
        [a0, a1, a2, a3, a4, a5, a6, a7], []⟩ := by
  rcases Serve_ok_cases req now res none h with ⟨_, h1⟩ | ⟨h1, _⟩
  · exact h1
  · cases h1

/-- The first byte of a response is the bitwise composition of LI 0, the
version of the request and mode 4: the sum in `generate` has no carry. -/
theorem firstByte_eq (b0 : Nat) :
    firstByte b0 = (0 <<< 6) ||| (((b0 >>> 3) &&& 7) <<< 3) ||| 4 ∧
    0 <<< 6 + ((b0 >>> 3) &&& 7) <<< 3 + 4 = (0 <<< 6) ||| (((b0 >>> 3) &&& 7) <<< 3) ||| 4 ∧
    ((firstByte b0) >>> 6) &&& 3 = 0 ∧
    ((firstByte b0) >>> 3) &&& 7 = (b0 >>> 3) &&& 7 ∧
    (firstByte b0) &&& 7 = 4 := by
  have hvn : (b0 >>> 3) &&& 7 ≤ 7 := Nat.and_le_right
  simp only [firstByte]
  generalize (b0 >>> 3) &&& 7 = vn at hvn ⊢
  interval_cases vn <;> decide

theorem wrapInt64_eq (x : Int) (h0 : -(2 ^ 63) ≤ x) (h1 : x < 2 ^ 63) : wrapInt64 x = x := by
  simp only [wrapInt64]
  omega

theorem secondsOf_eq (s : Int) (n : Int) (h0 : 0 ≤ s + 2208988800)
    (h1 : s + 2208988800 < 2 ^ 32) :
    (secondsOf ⟨s, n⟩ : Int) = s + 2208988800 ∧ secondsOf ⟨s, n⟩ < 2 ^ 32 := by
  simp only [secondsOf, SecondsFrom1900To1970, uint32]
  rw [wrapInt64_eq _ (by omega) (by omega)]
  omega

theorem fractionOf_eq (s : Int) (n : Nat) (hn : n < 10 ^ 9) :
    fractionOf ⟨s, n⟩ = n * 2 ^ 32 / 10 ^ 9 ∧ fractionOf ⟨s, n⟩ < 2 ^ 32 := by
  have hq : n * 2 ^ 32 / 10 ^ 9 < 2 ^ 32 := by omega
  simp only [fractionOf, uint32]
  rw [wrapInt64_eq (n : Int) (by omega) (by omega),
    wrapInt64_eq ((n : Int) * 2 ^ 32) (by omega) (by omega),
    Int.tdiv_eq_ediv (by positivity) (by norm_num)]
  have hc : ((n : Int) * 2 ^ 32 / 1000000000) = ((n * 2 ^ 32 / 10 ^ 9 : Nat) : Int) := by
    push_cast
    rfl
  rw [hc]
  omega

theorem beValue_putUint32 (v : Nat) (h : v < 2 ^ 32) : beValue (putUint32 v) = v := by
  simp only [beValue, putUint32, List.foldl, Nat.shiftRight_eq_div_pow]
  omega

theorem putUint32_lt (v : Nat) : ∀ b ∈ putUint32 v, b < 256 := by
  intro b hb
  simp only [putUint32, List.mem_cons, List.mem_singleton, List.not_mem_nil, or_false] at hb
  rcases hb with rfl | rfl | rfl | rfl <;> exact Nat.mod_lt _ (by decide)

theorem Serve_exampleRequest :
    Serve exampleRequest exampleNow = .ok (exampleResponse, none) := by rfl

theorem Serve_exampleLongRequest :
    Serve exampleLongRequest exampleNow = .ok (exampleResponse, none) := by rfl

set_option maxRecDepth 8192 in
theorem Serve_oneByteRequest :
    Serve oneByteRequest exampleNow = .ok (⟨
      [0x1C, 1, 4, 0x81, 0, 0, 0, 0, 0, 0, 0, 0, 0x4C, 0x4F, 0x43, 0x4C,
        0xE8, 0xFE, 0x6F, 0x80, 0x80, 0, 0, 0, 0, 0, 0, 0, 0, 0, 0, 0,
        0xE8, 0xFE, 0x6F, 0x80, 0x80, 0, 0, 0, 0xE8, 0xFE, 0x6F, 0x80, 0x80, 0, 0, 0], []⟩,
      none) := by rfl

set_option maxRecDepth 8192 in
theorem Serve_ninesRequest :
    Serve ninesRequest exampleNow = .ok (⟨
      [0x1C, 1, 4, 0x81, 0, 0, 0, 0, 0, 0, 0, 0, 0x4C, 0x4F, 0x43, 0x4C,
        0xE8, 0xFE, 0x6F, 0x80, 0x80, 0, 0, 0, 9, 9, 9, 9, 9, 9, 9, 9,
        0xE8, 0xFE, 0x6F, 0x80, 0x80, 0, 0, 0, 0xE8, 0xFE, 0x6F, 0x80, 0x80, 0, 0, 0], []⟩,
      none) := by rfl

theorem layout_length (r0 s f a0 a1 a2 a3 a4 a5 a6 a7 : Nat) :
    (layout r0 s f [a0, a1, a2, a3, a4, a5, a6, a7]).length = 48 := rfl

/-- A non-empty request with a good header and a capacity of 48 is answered. -/
theorem Serve_ok_of_cap (req : Slice) (now : Time) (b0 : Nat)
    (h0 : req.elems[0]? = some b0) (hok : headerOk b0) (hc : 48 ≤ req.cap) :
    ∃ res, Serve req now = .ok (res, none) ∧ res.len = 48 := by
  obtain ⟨a0, a1, a2, a3, a4, a5, a6, a7, hs, _⟩ := slice_40_48 req hc
  refine ⟨⟨layout (firstByte b0) (secondsOf now) (fractionOf now)
    [a0, a1, a2, a3, a4, a5, a6, a7], []⟩, ?_, ?_⟩
  · rw [Serve_accept req now b0 h0 hok, generate_eq req now b0 _ _ _ _ _ _ _ _ h0 hs]
    rfl
  · exact layout_length _ _ _ _ _ _ _ _ _ _ _

theorem cap_of_len (req : Slice) (hlen : 48 ≤ req.len) : 48 ≤ req.cap := by
  simp only [Slice.len, Slice.cap] at hlen ⊢
  omega

/-! ## The claims -/

/-- C1: for every request of length at least 48 (longer ones included) whose
first byte has Leap Indicator 0 or 3, Version in 1..4 and Mode 3, and for every
clock reading, `Serve` returns normally with a nil error and a response of
exactly 48 bytes. -/
theorem Serve_valid_request_succeeds (req : Slice) (now : Time) (b0 : Nat)
    (hlen : 48 ≤ req.len) (h0 : req.elems[0]? = some b0)
    (hli : (b0 >>> 6) &&& 3 = 0 ∨ (b0 >>> 6) &&& 3 = 3)
    (hvn : 1 ≤ (b0 >>> 3) &&& 7 ∧ (b0 >>> 3) &&& 7 ≤ 4)
    (hmode : b0 &&& 7 = 3) :
    ∃ res, Serve req now = .ok (res, none) ∧ res.len = 48 :=
  Serve_ok_of_cap req now b0 h0 ⟨hli, hvn.1, hvn.2, hmode⟩ (cap_of_len req hlen)

/-- Witness of C1: a request of 52 bytes with first byte `0xDB` is answered. -/
theorem Serve_valid_request_succeeds_witness :
    ∃ res, Serve exampleLongRequest exampleNow = .ok (res, none) ∧ res.len = 48 :=
  Serve_valid_request_succeeds exampleLongRequest exampleNow 0xDB (by decide) rfl
    (by decide) (by decide) (by decide)

/-- C2, as the code has it: a non-empty request shorter than 48 bytes whose first
byte breaks a header rule gets the error "invalid format" (the only error of
the package) and an empty byte sequence; only its byte 0 is read. -/
theorem Serve_short_request_bad_header (req : Slice) (now : Time) (b0 : Nat)
    (hlen : req.len < 48) (h0 : req.elems[0]? = some b0)
    (hbad : ¬ (((b0 >>> 6) &&& 3 = 0 ∨ (b0 >>> 6) &&& 3 = 3) ∧
      1 ≤ (b0 >>> 3) &&& 7 ∧ (b0 >>> 3) &&& 7 ≤ 4 ∧ b0 &&& 7 = 3)) :
    Serve req now = .ok (⟨[], []⟩, some "invalid format") := by
  have _ := hlen
  exact Serve_reject req now b0 h0 hbad

/-- Witness of the amended C2: the one-byte request `0x00`. -/
theorem Serve_short_request_bad_header_witness :
    Serve ⟨[0], []⟩ exampleNow = .ok (⟨[], []⟩, some "invalid format") :=
  Serve_short_request_bad_header ⟨[0], []⟩ exampleNow 0 (by decide) rfl (by decide)

/-- Counterexample to C2: the one-byte request `0x1B`, shorter than 48 bytes, is
not refused. In the 512-byte buffer of `main` it is answered with 48 bytes and a
nil error; in a buffer of capacity 1 the slice expression `req[40:48]` panics;
the empty request panics at `req[0]`. None of the three is an error result. -/
theorem Serve_short_request_counterexample :
    oneByteRequest.len = 1 ∧
    (∃ res, Serve oneByteRequest exampleNow = .ok (res, none) ∧ res.len = 48) ∧
    Serve ⟨[0x1B], []⟩ exampleNow = .error "slice bounds out of range" ∧
    Serve ⟨[], []⟩ exampleNow = .error "index out of range" :=
  ⟨rfl, ⟨_, Serve_oneByteRequest, rfl⟩, rfl, rfl⟩

/-- C3: for every request of length at least 48 whose Mode field is not 3,
`Serve` returns the error "invalid format" and an empty byte sequence. -/
theorem Serve_rejects_mode (req : Slice) (now : Time) (b0 : Nat)
    (hlen : 48 ≤ req.len) (h0 : req.elems[0]? = some b0) (hmode : b0 &&& 7 ≠ 3) :
    Serve req now = .ok (⟨[], []⟩, some "invalid format") := by
  have _ := hlen
  exact Serve_reject req now b0 h0 (fun h => hmode h.2.2.2)

/-- Witness of C3: the all-zero 48-byte request is rejected. -/
theorem Serve_rejects_mode_witness :
    Serve zeroRequest exampleNow = .ok (⟨[], []⟩, some "invalid format") :=
  Serve_rejects_mode zeroRequest exampleNow 0 (by decide) rfl (by decide)

/-- C4: for every request of length at least 48 whose Leap Indicator field is 1
or 2, `Serve` returns the error "invalid format", whatever Version and Mode. -/
theorem Serve_rejects_leap_indicator (req : Slice) (now : Time) (b0 : Nat)
    (hlen : 48 ≤ req.len) (h0 : req.elems[0]? = some b0)
    (hli : (b0 >>> 6) &&& 3 = 1 ∨ (b0 >>> 6) &&& 3 = 2) :
    Serve req now = .ok (⟨[], []⟩, some "invalid format") := by
  have _ := hlen
  refine Serve_reject req now b0 h0 (fun h => ?_)
  have h1 := h.1
  omega

/-- Witness of C4: first byte `0x5B` (LI 1, VN 3, Mode 3) and first byte `0x9B`
(LI 2, VN 3, Mode 3) are rejected. -/
theorem Serve_rejects_leap_indicator_witness :
    Serve (requestWith 0x5B) exampleNow =
        .ok (⟨[], []⟩, some "invalid format") ∧
      Serve (requestWith 0x9B) exampleNow =
        .ok (⟨[], []⟩, some "invalid format") :=
  ⟨Serve_rejects_leap_indicator (requestWith 0x5B) exampleNow 0x5B (by decide) rfl (by decide),
    Serve_rejects_leap_indicator (requestWith 0x9B) exampleNow 0x9B (by decide) rfl (by decide)⟩

/-- C5: for every request of length at least 48, a Version field of 0 or of 5
and more gives the error "invalid format"; with Leap Indicator 0 or 3 and Mode 3
the boundary versions 1 and 4 are both answered with a nil error. -/
theorem Serve_version_bounds (req : Slice) (now : Time) (b0 : Nat)
    (hlen : 48 ≤ req.len) (h0 : req.elems[0]? = some b0) :
    (((b0 >>> 3) &&& 7 = 0 ∨ 5 ≤ (b0 >>> 3) &&& 7) →
      Serve req now = .ok (⟨[], []⟩, some "invalid format")) ∧
    (((b0 >>> 6) &&& 3 = 0 ∨ (b0 >>> 6) &&& 3 = 3) → b0 &&& 7 = 3 →
      ((b0 >>> 3) &&& 7 = 1 ∨ (b0 >>> 3) &&& 7 = 4) →
      ∃ res, Serve req now = .ok (res, none) ∧ res.len = 48) := by
  constructor
  · intro hvn
    refine Serve_reject req now b0 h0 (fun h => ?_)
    have h1 := h.2.1
    have h2 := h.2.2.1
    omega
  · intro hli hmode hvn
    exact Serve_ok_of_cap req now b0 h0 ⟨hli, by omega, by omega, hmode⟩ (cap_of_len req hlen)

/-- Witness of C5: first byte `0b00000011` (VN 0) and `0b00101011` (VN 5) are
rejected; `0b00001011` (VN 1) and `0b00100011` (VN 4) are answered. -/
theorem Serve_version_bounds_witness :
    Serve (requestWith 0b00000011) exampleNow =
        .ok (⟨[], []⟩, some "invalid format") ∧
      Serve (requestWith 0b00101011) exampleNow =
        .ok (⟨[], []⟩, some "invalid format") ∧
      (∃ res, Serve (requestWith 0b00001011) exampleNow = .ok (res, none) ∧
        res.len = 48) ∧
      (∃ res, Serve (requestWith 0b00100011) exampleNow = .ok (res, none) ∧
        res.len = 48) :=
  ⟨(Serve_version_bounds (requestWith 0b00000011) exampleNow 0b00000011 (by decide) rfl).1 (by decide),
    (Serve_version_bounds (requestWith 0b00101011) exampleNow 0b00101011 (by decide) rfl).1 (by decide),
    (Serve_version_bounds (requestWith 0b00001011) exampleNow 0b00001011 (by decide) rfl).2
      (by decide) (by decide) (by decide),
    (Serve_version_bounds (requestWith 0b00100011) exampleNow 0b00100011 (by decide) rfl).2
      (by decide) (by decide) (by decide)⟩

/-- C6 (echo), as the code has it: for every accepted request of length at
least 48, response bytes 24..31 (Originate Timestamp) are exactly request bytes
40..47, byte for byte, whatever those eight bytes hold. -/
theorem Serve_echo (req : Slice) (now : Time) (res : Slice)
    (hlen : 48 ≤ req.len) (h : Serve req now = .ok (res, none)) :
    (res.elems.drop 24).take 8 = (req.elems.drop 40).take 8 ∧
      ((req.elems.drop 40).take 8).length = 8 := by
  obtain ⟨b0, a0, a1, a2, a3, a4, a5, a6, a7, _, _, _, hw, rfl⟩ := Serve_ok_inv req now res h
  simp only [Slice.len] at hlen
  have hd : (req.elems ++ req.spare).drop 40 = req.elems.drop 40 ++ req.spare :=
    List.drop_append_of_le_length (by omega)
  have ht : (req.elems.drop 40 ++ req.spare).take 8 = (req.elems.drop 40).take 8 :=
    List.take_append_of_le_length (by rw [List.length_drop]; omega)
  rw [hd, ht] at hw
  rw [hw]
  exact ⟨rfl, rfl⟩

/-- Witness of the amended C6: the transmit timestamp `1..8` of the 48-byte
`exampleRequest` is echoed. -/
theorem Serve_echo_witness :
    (exampleResponse.elems.drop 24).take 8 = [1, 2, 3, 4, 5, 6, 7, 8] ∧
      (exampleRequest.elems.drop 40).take 8 = [1, 2, 3, 4, 5, 6, 7, 8] ∧
      (exampleResponse.elems.drop 24).take 8 = (exampleRequest.elems.drop 40).take 8 :=
  ⟨rfl, rfl,
    (Serve_echo exampleRequest exampleNow exampleResponse (by decide) Serve_exampleRequest).1⟩

/-- Counterexample to C6: the one-byte request `0x1B`, as `main` passes it, is
accepted; it has no bytes 40..47, and response bytes 24..31 are eight zero bytes
of the buffer behind it. -/
theorem Serve_echo_counterexample :
    oneByteRequest.len = 1 ∧ (oneByteRequest.elems.drop 40).take 8 = [] ∧
    ∃ res, Serve oneByteRequest exampleNow = .ok (res, none) ∧
      (res.elems.drop 24).take 8 = [0, 0, 0, 0, 0, 0, 0, 0] ∧
      (res.elems.drop 24).take 8 ≠ (oneByteRequest.elems.drop 40).take 8 :=
  ⟨rfl, rfl, _, Serve_oneByteRequest, rfl, by decide⟩

/-- C7: for every accepted request with first byte `b0`, response byte 0 is
`(0 << 6) | (VN << 3) | 4` with `VN` bits 2-4 of `b0`: Leap Indicator 0, the
version of the request, Mode 4; the sum `LI<<6 + VN<<3 + mode` of the code equals
that bitwise OR. -/
theorem Serve_first_byte (req : Slice) (now : Time) (res : Slice) (b0 : Nat)
    (h0 : req.elems[0]? = some b0) (h : Serve req now = .ok (res, none)) :
    ∃ r0, res.elems[0]? = some r0 ∧
      r0 = (0 <<< 6) ||| (((b0 >>> 3) &&& 7) <<< 3) ||| 4 ∧
      0 <<< 6 + ((b0 >>> 3) &&& 7) <<< 3 + 4 = (0 <<< 6) ||| (((b0 >>> 3) &&& 7) <<< 3) ||| 4 ∧
      (r0 >>> 6) &&& 3 = 0 ∧ (r0 >>> 3) &&& 7 = (b0 >>> 3) &&& 7 ∧ r0 &&& 7 = 4 := by
  obtain ⟨b, a0, a1, a2, a3, a4, a5, a6, a7, hb, _, _, _, rfl⟩ := Serve_ok_inv req now res h
  have hbb : b = b0 := Option.some.inj (hb.symm.trans h0)
  subst hbb
  obtain ⟨h1, h2, h3, h4, h5⟩ := firstByte_eq b
  exact ⟨firstByte b, rfl, h1, h2, h3, h4, h5⟩

/-- Witness of C7: request byte `0x1B` gives response byte `0x1C`, and so does
`0xDB`, whose Leap Indicator is 3. -/
theorem Serve_first_byte_witness :
    (∃ r0, exampleResponse.elems[0]? = some r0 ∧
      r0 = (0 <<< 6) ||| (((0x1B >>> 3) &&& 7) <<< 3) ||| 4 ∧
      0 <<< 6 + ((0x1B >>> 3) &&& 7) <<< 3 + 4 = (0 <<< 6) ||| (((0x1B >>> 3) &&& 7) <<< 3) ||| 4 ∧
      (r0 >>> 6) &&& 3 = 0 ∧ (r0 >>> 3) &&& 7 = (0x1B >>> 3) &&& 7 ∧ r0 &&& 7 = 4) ∧
    (∃ r0, exampleResponse.elems[0]? = some r0 ∧
      r0 = (0 <<< 6) ||| (((0xDB >>> 3) &&& 7) <<< 3) ||| 4 ∧
      0 <<< 6 + ((0xDB >>> 3) &&& 7) <<< 3 + 4 = (0 <<< 6) ||| (((0xDB >>> 3) &&& 7) <<< 3) ||| 4 ∧
      (r0 >>> 6) &&& 3 = 0 ∧ (r0 >>> 3) &&& 7 = (0xDB >>> 3) &&& 7 ∧ r0 &&& 7 = 4) ∧
    exampleResponse.elems[0]? = some 0x1C :=
  ⟨Serve_first_byte exampleRequest exampleNow exampleResponse 0x1B rfl Serve_exampleRequest,
    Serve_first_byte exampleLongRequest exampleNow exampleResponse 0xDB rfl
      Serve_exampleLongRequest,
    rfl⟩

/-- C8: for a clock reading with Unix seconds `s` and nanoseconds `n < 10^9`
such that `0 ≤ s + 2208988800 < 2^32`, and every accepted request, the Reference
Timestamp (bytes 16..23) and the Receive Timestamp (bytes 32..39) are the same
eight bytes: four bytes whose big-endian value is `s + 2208988800`, then four
bytes whose big-endian value is `n * 2^32 / 10^9` rounded down. -/
theorem Serve_timestamps (req : Slice) (s : Int) (n : Nat) (res : Slice)
    (hn : n < 10 ^ 9) (hs0 : 0 ≤ s + 2208988800) (hs1 : s + 2208988800 < 2 ^ 32)
    (h : Serve req ⟨s, n⟩ = .ok (res, none)) :
    (res.elems.drop 32).take 8 = (res.elems.drop 16).take 8 ∧
      ((res.elems.drop 16).take 8).length = 8 ∧
      (∀ b ∈ (res.elems.drop 16).take 8, b < 256) ∧
      (beValue ((res.elems.drop 16).take 4) : Int) = s + 2208988800 ∧
      beValue ((res.elems.drop 20).take 4) = n * 2 ^ 32 / 10 ^ 9 := by
  obtain ⟨b0, a0, a1, a2, a3, a4, a5, a6, a7, _, _, _, _, rfl⟩ := Serve_ok_inv req _ res h
  obtain ⟨hs, hslt⟩ := secondsOf_eq s n hs0 hs1
  obtain ⟨hf, hflt⟩ := fractionOf_eq s n hn
  have w16 : ∀ r0 x y : Nat, ((layout r0 x y [a0, a1, a2, a3, a4, a5, a6, a7]).drop 16).take 8
      = putUint32 x ++ putUint32 y := fun _ _ _ => rfl
  have w16a : ∀ r0 x y : Nat, ((layout r0 x y [a0, a1, a2, a3, a4, a5, a6, a7]).drop 16).take 4
      = putUint32 x := fun _ _ _ => rfl
  have w20 : ∀ r0 x y : Nat, ((layout r0 x y [a0, a1, a2, a3, a4, a5, a6, a7]).drop 20).take 4
      = putUint32 y := fun _ _ _ => rfl
  refine ⟨rfl, rfl, ?_, ?_, ?_⟩
  · intro b hb
    simp only [w16, List.mem_append] at hb
    rcases hb with hb | hb <;> exact putUint32_lt _ b hb
  · simp only [w16a]
    rw [beValue_putUint32 _ hslt]
    exact hs
  · simp only [w20]
    rw [beValue_putUint32 _ hflt]
    exact hf

/-- Witness of C8: at 1700000000 s and 500000000 ns the seconds field holds
3908988800 and the fraction field `2^31`. -/
theorem Serve_timestamps_witness :
    (exampleResponse.elems.drop 32).take 8 = (exampleResponse.elems.drop 16).take 8 ∧
      ((exampleResponse.elems.drop 16).take 8).length = 8 ∧
      (∀ b ∈ (exampleResponse.elems.drop 16).take 8, b < 256) ∧
      (beValue ((exampleResponse.elems.drop 16).take 4) : Int) = 1700000000 + 2208988800 ∧
      beValue ((exampleResponse.elems.drop 20).take 4) = 500000000 * 2 ^ 32 / 10 ^ 9 :=
  Serve_timestamps exampleRequest 1700000000 500000000 exampleResponse (by decide) (by decide)
    (by decide) Serve_exampleRequest

/-- C9: for every response produced by `Serve`, with a nil error or not,
response bytes 40..47 (Transmit Timestamp) equal response bytes 32..39 (Receive
Timestamp); with a nil error both are eight bytes. -/
theorem Serve_transmit_eq_receive (req : Slice) (now : Time) (res : Slice)
    (err : Option String) (h : Serve req now = .ok (res, err)) :
    (res.elems.drop 40).take 8 = (res.elems.drop 32).take 8 ∧
      (err = none → ((res.elems.drop 40).take 8).length = 8) := by
  rcases Serve_ok_cases req now res err h with
    ⟨_, b0, a0, a1, a2, a3, a4, a5, a6, a7, _, _, _, _, rfl⟩ | ⟨he, rfl⟩
  · exact ⟨rfl, fun _ => rfl⟩
  · subst he
    exact ⟨rfl, fun hne => by cases hne⟩

/-- Witness of C9: the response to `exampleRequest`. -/
theorem Serve_transmit_eq_receive_witness :
    (exampleResponse.elems.drop 40).take 8 = (exampleResponse.elems.drop 32).take 8 ∧
      ((none : Option String) = none → ((exampleResponse.elems.drop 40).take 8).length = 8) :=
  Serve_transmit_eq_receive exampleRequest exampleNow exampleResponse none Serve_exampleRequest

/-- C10: for every accepted request, whatever it holds, response bytes 12..15
are `0x4C 0x4F 0x43 0x4C`, the ASCII characters `LOCL`. -/
theorem Serve_reference_identifier (req : Slice) (now : Time) (res : Slice)
    (h : Serve req now = .ok (res, none)) :
    (res.elems.drop 12).take 4 = [0x4C, 0x4F, 0x43, 0x4C] ∧
      (res.elems.drop 12).take 4 = ['L', 'O', 'C', 'L'].map Char.toNat := by
  obtain ⟨b0, a0, a1, a2, a3, a4, a5, a6, a7, _, _, _, _, rfl⟩ := Serve_ok_inv req now res h
  exact ⟨rfl, rfl⟩

/-- Witness of C10: the response to `exampleLongRequest`. -/
theorem Serve_reference_identifier_witness :
    (exampleResponse.elems.drop 12).take 4 = [0x4C, 0x4F, 0x43, 0x4C] ∧
      (exampleResponse.elems.drop 12).take 4 = ['L', 'O', 'C', 'L'].map Char.toNat :=
  Serve_reference_identifier exampleLongRequest exampleNow exampleResponse
    Serve_exampleLongRequest

/-! ## Further auxiliary facts -/

theorem elems_drop_40 (req : Slice) (hlen : 48 ≤ req.len) :
    ((req.elems ++ req.spare).drop 40).take 8 = (req.elems.drop 40).take 8 := by
  simp only [Slice.len] at hlen
  rw [List.drop_append_of_le_length (by omega),
    List.take_append_of_le_length (by rw [List.length_drop]; omega)]

/-- A request of length 48 or more is answered or refused by its bytes alone. -/
theorem Serve_of_len (req : Slice) (now : Time) (hlen : 48 ≤ req.len) :
    ∃ b0 a0 a1 a2 a3 a4 a5 a6 a7, req.elems[0]? = some b0 ∧
      (req.elems.drop 40).take 8 = [a0, a1, a2, a3, a4, a5, a6, a7] ∧
      Serve req now = if headerOk b0 then
        .ok (⟨layout (firstByte b0) (secondsOf now) (fractionOf now)
          [a0, a1, a2, a3, a4, a5, a6, a7], []⟩, none)
        else .ok (⟨[], []⟩, some "invalid format") := by
  obtain ⟨a0, a1, a2, a3, a4, a5, a6, a7, hs, hw⟩ := slice_40_48 req (cap_of_len req hlen)
  rw [elems_drop_40 req hlen] at hw
  have hpos : 0 < req.elems.length := by
    simp only [Slice.len] at hlen
    omega
  have h0 : req.elems[0]? = some (req.elems.get ⟨0, hpos⟩) := by
    simp [List.getElem?_eq_getElem hpos]
  refine ⟨_, a0, a1, a2, a3, a4, a5, a6, a7, h0, hw, ?_⟩
  by_cases hok : headerOk (req.elems.get ⟨0, hpos⟩)
  · rw [if_pos hok, Serve_accept req now _ h0 hok, generate_eq req now _ _ _ _ _ _ _ _ _ h0 hs]
    rfl
  · rw [if_neg hok, Serve_reject req now _ h0 hok]

theorem byte_fields (b : Nat) (hb : b < 256) :
    (b >>> 6) &&& 3 < 4 ∧ (b >>> 3) &&& 7 < 8 ∧ b &&& 7 < 8 ∧
      (((b >>> 6) &&& 3) <<< 6) ||| (((b >>> 3) &&& 7) <<< 3) ||| (b &&& 7) = b := by
  interval_cases b <;> decide

/-! ## The claims, continued -/

/-- C11: for every accepted request and every clock reading, response bytes
1..11 are constant: Stratum 1, Poll Interval 4, Precision `0x81` (the byte of
the signed value -127), Root Delay 0 and Root Dispersion 0. -/
theorem Serve_constant_fields (req : Slice) (now : Time) (res : Slice)
    (h : Serve req now = .ok (res, none)) :
    res.elems[1]? = some 1 ∧ res.elems[2]? = some 4 ∧
      res.elems[3]? = some (byteOfInt (-127)) ∧ byteOfInt (-127) = 0x81 ∧
      (res.elems.drop 4).take 4 = [0, 0, 0, 0] ∧ (res.elems.drop 8).take 4 = [0, 0, 0, 0] ∧
      (res.elems.drop 1).take 11 = [1, 4, 0x81, 0, 0, 0, 0, 0, 0, 0, 0] := by
  obtain ⟨b0, a0, a1, a2, a3, a4, a5, a6, a7, _, _, _, _, rfl⟩ := Serve_ok_inv req now res h
  have hb : byteOfInt (-127) = 0x81 := by decide
  rw [hb]
  exact ⟨rfl, rfl, rfl, rfl, rfl, rfl, rfl⟩

/-- Witness of C11: the response to `exampleRequest`. -/
theorem Serve_constant_fields_witness :
    exampleResponse.elems[1]? = some 1 ∧ exampleResponse.elems[2]? = some 4 ∧
      exampleResponse.elems[3]? = some (byteOfInt (-127)) ∧ byteOfInt (-127) = 0x81 ∧
      (exampleResponse.elems.drop 4).take 4 = [0, 0, 0, 0] ∧
      (exampleResponse.elems.drop 8).take 4 = [0, 0, 0, 0] ∧
      (exampleResponse.elems.drop 1).take 11 = [1, 4, 0x81, 0, 0, 0, 0, 0, 0, 0, 0] :=
  Serve_constant_fields exampleRequest exampleNow exampleResponse Serve_exampleRequest

/-- C12 (determinism), as the code has it: for every request of length at
least 48 and every clock reading, two calls of `Serve` with the same request
bytes and the same clock reading return the same results, error and bytes alike,
whatever buffers the two requests lie in. -/
theorem Serve_deterministic (req1 req2 : Slice) (now1 now2 : Time)
    (hreq : req1.elems = req2.elems) (hnow : now1 = now2) (hlen : 48 ≤ req1.len) :
    Serve req1 now1 = Serve req2 now2 := by
  subst hnow
  have hlen2 : 48 ≤ req2.len := by
    simp only [Slice.len] at hlen ⊢
    rw [← hreq]
    exact hlen
  obtain ⟨b, a0, a1, a2, a3, a4, a5, a6, a7, hb, hw, h1⟩ := Serve_of_len req1 now1 hlen
  obtain ⟨c, d0, d1, d2, d3, d4, d5, d6, d7, hc, hv, h2⟩ := Serve_of_len req2 now1 hlen2
  rw [hreq] at hb hw
  have hbc : b = c := Option.some.inj (hb.symm.trans hc)
  have hwv := hw.symm.trans hv
  rw [h1, h2, hbc, hwv]

/-- Witness of the amended C12: the 48 bytes of `exampleRequest` in a buffer of
capacity 48 and in a buffer of capacity 512 get the same answer. -/
theorem Serve_deterministic_witness :
    Serve exampleRequest exampleNow =
      Serve ⟨exampleRequest.elems, List.replicate 464 7⟩ exampleNow :=
  Serve_deterministic exampleRequest ⟨exampleRequest.elems, List.replicate 464 7⟩
    exampleNow exampleNow rfl rfl (by decide)

/-- Counterexample to C12: the same request bytes, the single byte `0x1B`, at
the same clock reading get three different results in three buffers: a response
that echoes eight zeros, a response that echoes eight nines, and a panic. -/
theorem Serve_deterministic_counterexample :
    oneByteRequest.elems = ninesRequest.elems ∧
    oneByteRequest.elems = (Slice.mk [0x1B] []).elems ∧
    Serve oneByteRequest exampleNow ≠ Serve ninesRequest exampleNow ∧
    (∃ res1 res2, Serve oneByteRequest exampleNow = .ok (res1, none) ∧
      Serve ninesRequest exampleNow = .ok (res2, none) ∧
      (res1.elems.drop 24).take 8 = [0, 0, 0, 0, 0, 0, 0, 0] ∧
      (res2.elems.drop 24).take 8 = [9, 9, 9, 9, 9, 9, 9, 9]) ∧
    Serve ⟨[0x1B], []⟩ exampleNow = .error "slice bounds out of range" := by
  refine ⟨rfl, rfl, fun h => ?_, ⟨_, _, Serve_oneByteRequest, Serve_ninesRequest, rfl, rfl⟩, rfl⟩
  rw [Serve_oneByteRequest, Serve_ninesRequest] at h
  simp at h

theorem uint32_wrapInt64 (x : Int) : (uint32 (wrapInt64 x) : Int) = x % 2 ^ 32 := by
  simp only [uint32, wrapInt64]
  omega

theorem uint32_lt (x : Int) : uint32 x < 2 ^ 32 := by
  simp only [uint32]
  omega

/-- C13, as the code has it: the seconds field wraps. For every clock reading
and every accepted request, the four bytes of the seconds field hold, big-endian,
the NTP seconds count `Unix seconds + 2208988800` reduced modulo `2^32`; no error
is returned for a count of `2^32` or more. -/
theorem Serve_seconds_mod (req : Slice) (now : Time) (res : Slice)
    (h : Serve req now = .ok (res, none)) :
    (beValue ((res.elems.drop 16).take 4) : Int) = (now.unix + 2208988800) % 2 ^ 32 := by
  obtain ⟨b0, a0, a1, a2, a3, a4, a5, a6, a7, _, _, _, _, rfl⟩ := Serve_ok_inv req now res h
  have w16 : ∀ r0 x y : Nat, ((layout r0 x y [a0, a1, a2, a3, a4, a5, a6, a7]).drop 16).take 4
      = putUint32 x := fun _ _ _ => rfl
  simp only [w16, secondsOf, SecondsFrom1900To1970]
  rw [beValue_putUint32 _ (uint32_lt _)]
  exact uint32_wrapInt64 _

/-- Witness of the amended C13: at Unix second 4000000000 the NTP count is
6208988800 and the field holds 1914021504. -/
theorem Serve_seconds_mod_witness :
    (beValue ((lateResponse.elems.drop 16).take 4) : Int) = (4000000000 + 2208988800) % 2 ^ 32 ∧
      (4000000000 + 2208988800 : Int) % 2 ^ 32 = 1914021504 :=
  ⟨Serve_seconds_mod exampleRequest lateNow lateResponse (by rfl), by decide⟩

/-- Counterexample to C13: at Unix second 2085978496 the NTP seconds count is
exactly `2^32`; `Serve` returns a nil error and the seconds field is `0 0 0 0`,
the count reduced modulo `2^32`. -/
theorem Serve_seconds_wrap_counterexample :
    (2 : Int) ^ 32 ≤ 2085978496 + 2208988800 ∧
    ∃ res, Serve exampleRequest ⟨2085978496, 0⟩ = .ok (res, none) ∧
      (res.elems.drop 16).take 4 = [0, 0, 0, 0] ∧
      (beValue ((res.elems.drop 16).take 4) : Int) = (2085978496 + 2208988800) % 2 ^ 32 :=
  ⟨by decide,
    ⟨[0x1C, 1, 4, 0x81, 0, 0, 0, 0, 0, 0, 0, 0, 0x4C, 0x4F, 0x43, 0x4C,
        0, 0, 0, 0, 0, 0, 0, 0, 1, 2, 3, 4, 5, 6, 7, 8,
        0, 0, 0, 0, 0, 0, 0, 0, 0, 0, 0, 0, 0, 0, 0, 0], []⟩,
      by rfl, by rfl, by decide⟩

/-- C14: `init` sets the masks to 3 and 7; for every first byte `b`,
`checkClientRequest` decides on Leap Indicator `(b >> 6) & 3`, Version
`(b >> 3) & 7` and Mode `b & 7`; the three fields are below 4, 8 and 8 and
partition the byte: `(LI << 6) | (VN << 3) | Mode = b`. -/
theorem checkClientRequest_fields :
    ParseUint "11" 2 8 = (3, false) ∧ ParseUint "111" 2 8 = (7, false) ∧
    bitMask2 = 3 ∧ bitMask3 = 7 ∧
    ∀ b, b < 256 →
      (b >>> 6) &&& bitMask2 < 4 ∧ (b >>> 3) &&& bitMask3 < 8 ∧ b &&& bitMask3 < 8 ∧
      (((b >>> 6) &&& bitMask2) <<< 6) ||| (((b >>> 3) &&& bitMask3) <<< 3) |||
        (b &&& bitMask3) = b ∧
      ∀ req : Slice, req.elems[0]? = some b →
        checkClientRequest req = .ok (decide
          (((b >>> 6) &&& 3 = 0 ∨ (b >>> 6) &&& 3 = 3) ∧
            1 ≤ (b >>> 3) &&& 7 ∧ (b >>> 3) &&& 7 ≤ 4 ∧ b &&& 7 = 3)) := by
  refine ⟨by decide, by decide, bitMask2_eq, bitMask3_eq, fun b hb => ?_⟩
  rw [bitMask2_eq, bitMask3_eq]
  obtain ⟨h1, h2, h3, h4⟩ := byte_fields b hb
  exact ⟨h1, h2, h3, h4, fun req h0 => checkClientRequest_eq req b h0⟩

/-- Witness of C14: the first byte `0x1B` has fields 0, 3, 3 and passes. -/
theorem checkClientRequest_fields_witness :
    (0x1B >>> 6) &&& bitMask2 < 4 ∧ (0x1B >>> 3) &&& bitMask3 < 8 ∧ 0x1B &&& bitMask3 < 8 ∧
      (((0x1B >>> 6) &&& bitMask2) <<< 6) ||| (((0x1B >>> 3) &&& bitMask3) <<< 3) |||
        (0x1B &&& bitMask3) = 0x1B ∧
      ∀ req : Slice, req.elems[0]? = some 0x1B →
        checkClientRequest req = .ok (decide
          (((0x1B >>> 6) &&& 3 = 0 ∨ (0x1B >>> 6) &&& 3 = 3) ∧
            1 ≤ (0x1B >>> 3) &&& 7 ∧ (0x1B >>> 3) &&& 7 ≤ 4 ∧ 0x1B &&& 7 = 3)) :=
  checkClientRequest_fields.2.2.2.2 0x1B (by decide)

theorem sendsOf_append (xs ys : List Effect) : sendsOf (xs ++ ys) = sendsOf xs ++ sendsOf ys := by
  induction xs with
  | nil => rfl
  | cons x xs ih =>
    cases x with
    | writeTo bytes addr =>
      show (bytes, addr) :: sendsOf (xs ++ ys) = (bytes, addr) :: sendsOf xs ++ sendsOf ys
      rw [ih]
      rfl
    | println msg => exact ih

theorem readLength_pos (p : List Nat) (hp : p ≠ []) : readLength p > 0 := by
  cases p with
  | nil => exact absurd rfl hp
  | cons a l =>
    simp only [readLength, List.length_cons]
    omega

/-- In the 512-byte buffer of `main` a non-empty datagram never makes `Serve`
panic. -/
theorem Serve_dataBuffer (p : List Nat) (now : Time) (hp : p ≠ []) :
    ∃ res err, Serve (dataBuffer p) now = .ok (res, err) := by
  cases p with
  | nil => exact absurd rfl hp
  | cons a l =>
    have h0 : (dataBuffer (a :: l)).elems[0]? = some a := by
      simp [dataBuffer]
    have hc : 48 ≤ (dataBuffer (a :: l)).cap := by
      simp only [dataBuffer, Slice.cap, readLength, List.length_take, List.length_replicate]
      omega
    by_cases hok : headerOk a
    · obtain ⟨res, h, _⟩ := Serve_ok_of_cap _ now a h0 hok hc
      exact ⟨res, none, h⟩
    · exact ⟨_, _, Serve_reject _ now a h0 hok⟩

/-- One iteration of the loop returns normally and sends what `answerOf` says. -/
theorem iteration_sends (t : Tick) :
    ∃ effs, iteration t = .ok effs ∧ sendsOf effs = (answerOf t).toList := by
  obtain ⟨⟨p, addr, err⟩, now, werr⟩ := t
  cases err with
  | true => exact ⟨[], rfl, rfl⟩
  | false =>
    by_cases hp : p = []
    · subst hp
      exact ⟨[], rfl, rfl⟩
    · obtain ⟨res, e, hS⟩ := Serve_dataBuffer p now hp
      have hpos := readLength_pos p hp
      simp only [iteration, answerOf, hp, hS, hpos, bind, Except.bind, pure, Except.pure,
        if_true, if_false, Bool.false_eq_true]
      cases e with
      | some e => exact ⟨_, rfl, rfl⟩
      | none =>
        cases werr with
        | some er => exact ⟨_, rfl, rfl⟩
        | none => exact ⟨_, rfl, rfl⟩

theorem mainLoop_sends_aux (ticks : List Tick) :
    ∃ effs, mainLoop ticks = .ok effs ∧ sendsOf effs = ticks.filterMap answerOf := by
  induction ticks with
  | nil => exact ⟨[], rfl, rfl⟩
  | cons t ts ih =>
    obtain ⟨e, he, hs⟩ := iteration_sends t
    obtain ⟨es, hes, hss⟩ := ih
    refine ⟨e ++ es, ?_, ?_⟩
    · simp only [mainLoop, he, hes, bind, Except.bind, pure, Except.pure]
    · rw [sendsOf_append, hs, hss]
      cases h : answerOf t <;> simp [List.filterMap_cons, h]

set_option maxRecDepth 8192 in
theorem Serve_dataBuffer_example :
    Serve (dataBuffer exampleRequest.elems) exampleNow = .ok (exampleResponse, none) := by rfl

theorem beValue_timestamp (x y : Nat) (hx : x < 2 ^ 32) (hy : y < 2 ^ 32) :
    beValue (putUint32 x ++ putUint32 y) = x * 2 ^ 32 + y := by
  simp only [beValue, putUint32, List.cons_append, List.nil_append, List.foldl,
    Nat.shiftRight_eq_div_pow]
  omega

theorem putUint32_injective (x y : Nat) (hx : x < 2 ^ 32) (hy : y < 2 ^ 32)
    (h : putUint32 x = putUint32 y) : x = y := by
  rw [← beValue_putUint32 x hx, ← beValue_putUint32 y hy, h]

/-- C15: in the loop of `main` a datagram is answered only when `Serve`
succeeded on it. The loop returns normally, and the calls of `WriteTo` it makes
are, in order, the answers to the datagrams: none for a failed read, for an empty
datagram (which is not passed to `Serve`) and for a datagram on which `Serve`
returns an error; the bytes `Serve` returned, to the sender's address, otherwise. -/
theorem mainLoop_sends (ticks : List Tick) :
    ∃ effs, mainLoop ticks = .ok effs ∧ main false false ticks = .ok effs ∧
      sendsOf effs = ticks.filterMap answerOf ∧
      ∀ t ∈ ticks,
        (t.recv.err = true ∨ t.recv.payload = [] → answerOf t = none) ∧
        (∀ res e, Serve (dataBuffer t.recv.payload) t.now = .ok (res, some e) →
          answerOf t = none) ∧
        (∀ res, t.recv.err = false → t.recv.payload ≠ [] →
          Serve (dataBuffer t.recv.payload) t.now = .ok (res, none) →
          answerOf t = some (res.elems, t.recv.remoteAddr)) := by
  obtain ⟨effs, h1, h2⟩ := mainLoop_sends_aux ticks
  refine ⟨effs, h1, h1, h2, fun t _ => ⟨?_, ?_, ?_⟩⟩
  · rintro (he | hp)
    · simp only [answerOf, he, if_true]
    · simp only [answerOf, hp, if_true, ite_self]
  · intro res e hS
    simp only [answerOf, hS, ite_self]
  · intro res he hp hS
    simp only [answerOf, he, hp, hS, if_false, Bool.false_eq_true]

/-- Witness of C15: of the four datagrams of `exampleTicks` only the valid
request is answered, with the bytes of `exampleResponse`, to its sender 7. -/
theorem mainLoop_sends_witness :
    (∃ effs, mainLoop exampleTicks = .ok effs ∧
      sendsOf effs = [(exampleResponse.elems, 7)]) ∧
    answerOf ⟨⟨exampleRequest.elems, 7, false⟩, exampleNow, none⟩ =
      some (exampleResponse.elems, 7) := by
  obtain ⟨effs, h1, _, h2, h3⟩ := mainLoop_sends exampleTicks
  refine ⟨⟨effs, h1, h2.trans ?_⟩, ?_⟩
  · have ha := (h3 ⟨⟨exampleRequest.elems, 7, false⟩, exampleNow, none⟩
      (List.mem_cons_self _ _)).2.2 exampleResponse rfl (by decide) Serve_dataBuffer_example
    have hb := (h3 ⟨⟨zeroRequest.elems, 8, false⟩, exampleNow, none⟩
      (List.mem_cons_of_mem _ (List.mem_cons_self _ _))).2.1 ⟨[], []⟩ "invalid format" (by rfl)
    have hc := (h3 ⟨⟨[], 9, false⟩, exampleNow, none⟩
      (List.mem_cons_of_mem _ (List.mem_cons_of_mem _ (List.mem_cons_self _ _)))).1
      (Or.inr rfl)
    have hd := (h3 ⟨⟨exampleRequest.elems, 10, true⟩, exampleNow, none⟩
      (List.mem_cons_of_mem _ (List.mem_cons_of_mem _ (List.mem_cons_of_mem _
        (List.mem_cons_self _ _))))).1 (Or.inl rfl)
    simp only [exampleTicks, List.filterMap_cons, List.filterMap_nil, ha, hb, hc, hd]
  · exact (h3 ⟨⟨exampleRequest.elems, 7, false⟩, exampleNow, none⟩
      (List.mem_cons_self _ _)).2.2 exampleResponse rfl (by decide) Serve_dataBuffer_example

/-- C16: for every nanosecond value `n < 10^9` the shift `n << 32` stays below
`2^63`, so the `int64` arithmetic of `generate` does not wrap; the quotient by
`10^9` lies in `[0, 2^32)`, so `uint32` keeps it; and the fraction field of every
response holds exactly `n * 2^32 / 10^9` rounded down. -/
theorem fraction_exact (n : Nat) (hn : n < 10 ^ 9) :
    (n : Int) * 2 ^ 32 < 2 ^ 63 ∧
    wrapInt64 (wrapInt64 n * 2 ^ 32) = (n : Int) * 2 ^ 32 ∧
    Int.tdiv (wrapInt64 (wrapInt64 n * 2 ^ 32)) 1000000000 = ((n * 2 ^ 32 / 10 ^ 9 : Nat) : Int) ∧
    n * 2 ^ 32 / 10 ^ 9 < 2 ^ 32 ∧
    uint32 (Int.tdiv (wrapInt64 (wrapInt64 n * 2 ^ 32)) 1000000000) = n * 2 ^ 32 / 10 ^ 9 ∧
    ∀ (req : Slice) (s : Int) (res : Slice), Serve req ⟨s, n⟩ = .ok (res, none) →
      beValue ((res.elems.drop 20).take 4) = n * 2 ^ 32 / 10 ^ 9 := by
  have hq : n * 2 ^ 32 / 10 ^ 9 < 2 ^ 32 := by omega
  have hw1 : wrapInt64 (n : Int) = n := wrapInt64_eq _ (by omega) (by omega)
  have hw2 : wrapInt64 ((n : Int) * 2 ^ 32) = (n : Int) * 2 ^ 32 :=
    wrapInt64_eq _ (by omega) (by omega)
  have hd : Int.tdiv ((n : Int) * 2 ^ 32) 1000000000 = ((n * 2 ^ 32 / 10 ^ 9 : Nat) : Int) := by
    have hnn : (0 : Int) ≤ (n : Int) * 2 ^ 32 := by omega
    rw [Int.tdiv_eq_ediv hnn (by norm_num)]
    push_cast
    rfl
  refine ⟨by omega, by rw [hw1, hw2], by rw [hw1, hw2, hd], hq, ?_, ?_⟩
  · rw [hw1, hw2, hd]
    simp only [uint32]
    omega
  · intro req s res h
    obtain ⟨b0, a0, a1, a2, a3, a4, a5, a6, a7, _, _, _, _, rfl⟩ := Serve_ok_inv req _ res h
    obtain ⟨hf, hflt⟩ := fractionOf_eq s n hn
    have w20 : ∀ r0 x y : Nat, ((layout r0 x y [a0, a1, a2, a3, a4, a5, a6, a7]).drop 20).take 4
        = putUint32 y := fun _ _ _ => rfl
    simp only [w20]
    rw [beValue_putUint32 _ hflt]
    exact hf

/-- Witness of C16: half a second gives the fraction `2^31`. -/
theorem fraction_exact_witness :
    uint32 (Int.tdiv (wrapInt64 (wrapInt64 (500000000 : Nat) * 2 ^ 32)) 1000000000)
        = 500000000 * 2 ^ 32 / 10 ^ 9 ∧
      beValue ((exampleResponse.elems.drop 20).take 4) = 500000000 * 2 ^ 32 / 10 ^ 9 ∧
      500000000 * 2 ^ 32 / 10 ^ 9 = 2 ^ 31 :=
  ⟨(fraction_exact 500000000 (by decide)).2.2.2.2.1,
    (fraction_exact 500000000 (by decide)).2.2.2.2.2 exampleRequest 1700000000
      exampleResponse Serve_exampleRequest,
    by decide⟩

/-- C17: within one NTP era the timestamp encoding preserves the order of clock
readings. For readings `(s1, n1)` and `(s2, n2)` with nanoseconds below `10^9`
and seconds counts `s + 2208988800` in `[0, 2^32)`, the eight timestamp bytes of
a response, read as a big-endian integer, are strictly smaller for the
lexicographically smaller reading; distinct nanoseconds give distinct fraction
fields. -/
theorem Serve_timestamp_order (req1 req2 : Slice) (s1 s2 : Int) (n1 n2 : Nat)
    (res1 res2 : Slice) (hn1 : n1 < 10 ^ 9) (hn2 : n2 < 10 ^ 9)
    (hs1 : 0 ≤ s1 + 2208988800 ∧ s1 + 2208988800 < 2 ^ 32)
    (hs2 : 0 ≤ s2 + 2208988800 ∧ s2 + 2208988800 < 2 ^ 32)
    (h1 : Serve req1 ⟨s1, n1⟩ = .ok (res1, none))
    (h2 : Serve req2 ⟨s2, n2⟩ = .ok (res2, none)) :
    (s1 < s2 ∨ (s1 = s2 ∧ n1 < n2) →
      beValue ((res1.elems.drop 16).take 8) < beValue ((res2.elems.drop 16).take 8)) ∧
    (n1 ≠ n2 → (res1.elems.drop 20).take 4 ≠ (res2.elems.drop 20).take 4) := by
  obtain ⟨b, a0, a1, a2, a3, a4, a5, a6, a7, _, _, _, _, rfl⟩ := Serve_ok_inv req1 _ res1 h1
  obtain ⟨c, d0, d1, d2, d3, d4, d5, d6, d7, _, _, _, _, rfl⟩ := Serve_ok_inv req2 _ res2 h2
  obtain ⟨hx1, hx1lt⟩ := secondsOf_eq s1 n1 hs1.1 hs1.2
  obtain ⟨hx2, hx2lt⟩ := secondsOf_eq s2 n2 hs2.1 hs2.2
  obtain ⟨hf1, hf1lt⟩ := fractionOf_eq s1 n1 hn1
  obtain ⟨hf2, hf2lt⟩ := fractionOf_eq s2 n2 hn2
  have w16 : ∀ (r0 x y : Nat) (o : List Nat), ((layout r0 x y o).drop 16).take 8
      = putUint32 x ++ putUint32 y := fun _ _ _ _ => rfl
  have w20 : ∀ (r0 x y : Nat) (o : List Nat), ((layout r0 x y o).drop 20).take 4
      = putUint32 y := fun _ _ _ _ => rfl
  simp only [w16, w20]
  constructor
  · intro hlt
    rw [beValue_timestamp _ _ hx1lt hf1lt, beValue_timestamp _ _ hx2lt hf2lt, hf1, hf2]
    rcases hlt with hlt | ⟨hs, hn⟩
    · have hsec : secondsOf ⟨s1, n1⟩ + 1 ≤ secondsOf ⟨s2, n2⟩ := by omega
      have hq : n1 * 2 ^ 32 / 10 ^ 9 < 2 ^ 32 := by omega
      omega
    · have hsec : secondsOf ⟨s1, n1⟩ = secondsOf ⟨s2, n2⟩ := by omega
      rw [hsec]
      omega
  · intro hne hEq
    have hfe := putUint32_injective _ _ hf1lt hf2lt hEq
    rw [hf1, hf2] at hfe
    omega

/-- Witness of C17: the reading 1700000000.5 s comes before 1700000001.0 s, the
timestamp of `exampleResponse` is below that of `nextResponse`, and their
fraction fields differ. -/
theorem Serve_timestamp_order_witness :
    beValue ((exampleResponse.elems.drop 16).take 8) <
        beValue ((nextResponse.elems.drop 16).take 8) ∧
      (exampleResponse.elems.drop 20).take 4 ≠ (nextResponse.elems.drop 20).take 4 :=
  ⟨(Serve_timestamp_order exampleRequest exampleRequest 1700000000 1700000001 500000000 0
      exampleResponse nextResponse (by decide) (by decide) (by decide) (by decide)
      Serve_exampleRequest (by rfl)).1 (Or.inl (by decide)),
    (Serve_timestamp_order exampleRequest exampleRequest 1700000000 1700000001 500000000 0
      exampleResponse nextResponse (by decide) (by decide) (by decide) (by decide)
      Serve_exampleRequest (by rfl)).2 (by decide)⟩

/-- C18 (non-interference): whether a request is accepted is decided by its
byte 0 alone, and for a fixed clock reading the response depends only on bits 2-4
of byte 0 and on bytes 40..47. Two accepted requests of length 48 or more, of
equal or different lengths, that agree on those bits and bytes get the same
response, whatever their other bytes and their Leap Indicator. -/
theorem Serve_noninterference (req1 req2 : Slice) (now : Time) (b1 b2 : Nat)
    (h1 : req1.elems[0]? = some b1) (h2 : req2.elems[0]? = some b2)
    (hl1 : 48 ≤ req1.len) (hl2 : 48 ≤ req2.len) :
    (b1 = b2 → checkClientRequest req1 = checkClientRequest req2 ∧
      ∀ now1 now2, (Serve req1 now1).map Prod.snd = (Serve req2 now2).map Prod.snd) ∧
    (∀ res1 res2, (b1 >>> 3) &&& 7 = (b2 >>> 3) &&& 7 →
      (req1.elems.drop 40).take 8 = (req2.elems.drop 40).take 8 →
      Serve req1 now = .ok (res1, none) → Serve req2 now = .ok (res2, none) →
      res1 = res2) := by
  constructor
  · intro hb
    subst hb
    refine ⟨by rw [checkClientRequest_eq req1 b1 h1, checkClientRequest_eq req2 b1 h2], ?_⟩
    intro now1 now2
    by_cases hok : headerOk b1
    · obtain ⟨r1, hr1, _⟩ := Serve_ok_of_cap req1 now1 b1 h1 hok (cap_of_len req1 hl1)
      obtain ⟨r2, hr2, _⟩ := Serve_ok_of_cap req2 now2 b1 h2 hok (cap_of_len req2 hl2)
      rw [hr1, hr2]
      rfl
    · rw [Serve_reject req1 now1 b1 h1 hok, Serve_reject req2 now2 b1 h2 hok]
  · intro res1 res2 hvn hw hS1 hS2
    obtain ⟨b, a0, a1, a2, a3, a4, a5, a6, a7, hb, _, _, hwa, rfl⟩ := Serve_ok_inv req1 now res1 hS1
    obtain ⟨c, d0, d1, d2, d3, d4, d5, d6, d7, hc, _, _, hwd, rfl⟩ := Serve_ok_inv req2 now res2 hS2
    have hb1 : b = b1 := Option.some.inj (hb.symm.trans h1)
    have hc2 : c = b2 := Option.some.inj (hc.symm.trans h2)
    subst hb1
    subst hc2
    rw [elems_drop_40 req1 hl1] at hwa
    rw [elems_drop_40 req2 hl2] at hwd
    have hfb : firstByte b = firstByte c := by
      simp only [firstByte, hvn]
    rw [hfb, ← hwa, ← hwd, hw]

/-- Witness of C18: `exampleRequest` (48 bytes, LI 0) and `exampleLongRequest`
(52 bytes, LI 3) get the same result at `exampleNow`; `exampleRequest` and the
request `0x1B` followed by zeros are both accepted, at different clock readings. -/
theorem Serve_noninterference_witness :
    Serve exampleRequest exampleNow = Serve exampleLongRequest exampleNow ∧
      checkClientRequest exampleRequest = checkClientRequest (requestWith 0x1B) ∧
      (Serve exampleRequest exampleNow).map Prod.snd =
        (Serve (requestWith 0x1B) lateNow).map Prod.snd :=
  ⟨(Serve_exampleRequest.trans (congrArg (fun r => Except.ok (r, none))
      ((Serve_noninterference exampleRequest exampleLongRequest exampleNow 0x1B 0xDB rfl rfl
        (by decide) (by decide)).2 exampleResponse exampleResponse (by decide) (by decide)
        Serve_exampleRequest Serve_exampleLongRequest))).trans Serve_exampleLongRequest.symm,
    ((Serve_noninterference exampleRequest (requestWith 0x1B) exampleNow 0x1B 0x1B rfl rfl
      (by decide) (by decide)).1 rfl).1,
    ((Serve_noninterference exampleRequest (requestWith 0x1B) exampleNow 0x1B 0x1B rfl rfl
      (by decide) (by decide)).1 rfl).2 exampleNow lateNow⟩

/-- C19: a response is never an acceptable request. For every accepted request
and all clock readings, the 48-byte response has Mode 4 in its first byte, and
`Serve` on it returns the error "invalid format" and no bytes. -/
theorem Serve_response_rejected (req : Slice) (now now2 : Time) (res : Slice)
    (h : Serve req now = .ok (res, none)) :
    Serve res now2 = .ok (⟨[], []⟩, some "invalid format") ∧
      res.len = 48 ∧ ∃ r0, res.elems[0]? = some r0 ∧ r0 &&& 7 = 4 := by
  obtain ⟨b0, a0, a1, a2, a3, a4, a5, a6, a7, _, _, _, _, rfl⟩ := Serve_ok_inv req now res h
  obtain ⟨_, _, _, _, h5⟩ := firstByte_eq b0
  refine ⟨Serve_reject _ now2 (firstByte b0) rfl (fun hok => ?_), rfl, firstByte b0, rfl, h5⟩
  have h4 := hok.2.2.2
  omega

/-- Witness of C19: `exampleResponse`, the answer to `exampleRequest`, is refused. -/
theorem Serve_response_rejected_witness :
    Serve exampleResponse lateNow = .ok (⟨[], []⟩, some "invalid format") ∧
      exampleResponse.len = 48 ∧ ∃ r0, exampleResponse.elems[0]? = some r0 ∧ r0 &&& 7 = 4 :=
  Serve_response_rejected exampleRequest exampleNow lateNow exampleResponse Serve_exampleRequest

end Sntp
